import Mathlib

/-!
Verification development for the `sfcc-metadata-explorer` VS Code extension.

The TypeScript sources are shallowly embedded as executable Lean functions:

* `src/apiConfig.ts`               → `apiConfig` (the endpoint catalog)
* `src/service/OCAPIService.ts`    → `getCallSetupWith` (the call resolver)
* `src/documents/ObjectAttributeDefinition.ts`
                                   → `ObjectAttributeDefinition.ofArgs`,
                                     `ObjectAttributeDefinition.getDocument`
* `src/components/MetadataViewProvider.ts`
                                   → the tree-materialization strategies
* `src/xmlHandler/XMLHandler.ts`   → `XMLHandler.getXMLFromNode`

Dynamically-typed JavaScript values are modelled by the inductive `JSValue`;
JavaScript truthiness, `typeof`, strict equality, property access and the
string methods the sources use (`indexOf`, `replace`, `split`, `pop`,
`encodeURIComponent`) are modelled by executable helpers below.
-/

/-- A JavaScript runtime value, as far as the embedded code needs it.
Plain objects are ordered association lists (insertion order preserved, a
lookup returns the first binding).  `oavdInst` models a class instance of
`ObjectAttributeValueDefinition` so that `instanceof` checks and field access
on the parsed default-value document can be expressed; every other class
instance the claims touch is modelled by a dedicated Lean structure. -/
inductive JSValue where
  | undef : JSValue
  | null : JSValue
  | bool : Bool → JSValue
  | num : Int → JSValue
  | str : String → JSValue
  | arr : List JSValue → JSValue
  | obj : List (String × JSValue) → JSValue
  | oavdInst : JSValue → JSValue → JSValue → JSValue

namespace JSValue

/-- First binding of a key in an association list. -/
def assocGet : List (String × JSValue) → String → Option JSValue
  | [], _ => none
  | (k, v) :: rest, key => if k = key then some v else assocGet rest key

/-- JavaScript property access `v[key]`.  Absent properties are `undefined`.
(Access on `null`/`undefined` would throw in JavaScript; the embedded code
never performs it, and the model totalizes it to `undefined`.) -/
def get (v : JSValue) (key : String) : JSValue :=
  match v with
  | obj fields => (assocGet fields key).getD undef
  | oavdInst i value displayValue =>
    if key = "id" then i
    else if key = "value" then value
    else if key = "displayValue" then displayValue
    else undef
  | _ => undef

/-- JavaScript truthiness. -/
def truthy : JSValue → Bool
  | undef => false
  | null => false
  | bool b => b
  | num n => n ≠ 0
  | str s => s ≠ ""
  | arr _ => true
  | obj _ => true
  | oavdInst _ _ _ => true

/-- JavaScript `typeof`. -/
def typeof : JSValue → String
  | undef => "undefined"
  | null => "object"
  | bool _ => "boolean"
  | num _ => "number"
  | str _ => "string"
  | arr _ => "object"
  | obj _ => "object"
  | oavdInst _ _ _ => "object"

/-- JavaScript `===`.  Objects and arrays compare by reference; the embedded
code only ever strict-compares primitives, so distinct-reference cases are
totalized to `false`. -/
def strictEq : JSValue → JSValue → Bool
  | undef, undef => true
  | null, null => true
  | bool a, bool b => a = b
  | num a, num b => a = b
  | str a, str b => a = b
  | _, _ => false

/-- JavaScript string coercion (`'' + v`, template literals, `.toString()`).
The embedded code only ever coerces primitives and plain objects (every
guard in the sources checks `typeof` or hardcodes the operand before
concatenating), so the array case — which JavaScript would recursively
join — is totalized to the empty string. -/
def toJSString : JSValue → String
  | undef => "undefined"
  | null => "null"
  | bool b => if b then "true" else "false"
  | num n => toString n
  | str s => s
  | arr _ => ""
  | obj _ => "[object Object]"
  | oavdInst _ _ _ => "[object Object]"

/-- Elements of an array value (`[]` for non-arrays). -/
def arrElems : JSValue → List JSValue
  | arr elts => elts
  | _ => []

/-- JavaScript `Array.isArray`. -/
def isArray : JSValue → Bool
  | arr _ => true
  | _ => false

/-- JavaScript `v.length` truthiness test `if (v.length)`: only strings and
arrays have a numeric `length`; for anything else `v.length` is `undefined`
and therefore falsy. -/
def lengthTruthy : JSValue → Bool
  | arr elts => elts.length ≠ 0
  | str s => s.length ≠ 0
  | _ => false

end JSValue

/-! ### JavaScript string methods -/

/-- Character-list prefix test (the primitive behind `indexOf`). -/
def charsPrefixOf : List Char → List Char → Bool
  | [], _ => true
  | _ :: _, [] => false
  | a :: as, b :: bs => a = b && charsPrefixOf as bs

/-- Search loop of `String.prototype.indexOf`: first position at or after `i`
where `pat` occurs in `s`. -/
def jsIndexOfAux (pat : List Char) : List Char → Nat → Option Nat
  | s, i =>
    if charsPrefixOf pat s then some i
    else
      match s with
      | [] => none
      | _ :: t => jsIndexOfAux pat t (i + 1)

/-- JavaScript `s.indexOf(pat) > -1`, i.e. substring containment. -/
def jsContains (s pat : String) : Bool :=
  (jsIndexOfAux pat.data s.data 0).isSome

/-- JavaScript `String.prototype.replace` with a plain-string pattern: replaces only the
first occurrence, leaves the string unchanged when the pattern is absent. -/
def jsReplaceFirst (s pat repl : String) : String :=
  match jsIndexOfAux pat.data s.data 0 with
  | none => s
  | some i =>
    ⟨s.data.take i ++ repl.data ++ s.data.drop (i + pat.data.length)⟩

/-- UTF-8 bytes of a character (as natural numbers below 256). -/
def utf8Bytes (c : Char) : List Nat :=
  let n := c.toNat
  if n < 0x80 then [n]
  else if n < 0x800 then
    [0xC0 ||| (n >>> 6), 0x80 ||| (n &&& 0x3F)]
  else if n < 0x10000 then
    [0xE0 ||| (n >>> 12), 0x80 ||| ((n >>> 6) &&& 0x3F), 0x80 ||| (n &&& 0x3F)]
  else
    [0xF0 ||| (n >>> 18), 0x80 ||| ((n >>> 12) &&& 0x3F),
      0x80 ||| ((n >>> 6) &&& 0x3F), 0x80 ||| (n &&& 0x3F)]

/-- Upper-case hexadecimal digit. -/
def hexDigit (n : Nat) : Char :=
  if n < 10 then Char.ofNat (48 + n) else Char.ofNat (55 + n)

/-- Characters `encodeURIComponent` leaves unescaped:
`A–Z a–z 0–9 - _ . ! ~ * ' ( )`. -/
def uriUnreserved (c : Char) : Bool :=
  c.isAlpha || c.isDigit ||
    c = '-' || c = '_' || c = '.' || c = '!' || c = '~' ||
    c = '*' || c = '\'' || c = '(' || c = ')'

/-- JavaScript `encodeURIComponent`: unreserved characters pass through, every other
character is emitted as `%XX` per UTF-8 byte. -/
def encodeURIComponent (s : String) : String :=
  ⟨s.data.foldr
    (fun c acc =>
      if uriUnreserved c then c :: acc
      else (utf8Bytes c).foldr
        (fun b acc2 => '%' :: hexDigit (b / 16) :: hexDigit (b % 16) :: acc2)
        acc)
    []⟩

/-- Splitting a character list on a separator character (the primitive
behind `String.prototype.split('.')`; splitting the empty string yields one
empty segment, as in JavaScript). -/
def jsSplitChar (sep : Char) : List Char → List (List Char)
  | [] => [[]]
  | c :: rest =>
    let r := jsSplitChar sep rest
    if c = sep then [] :: r
    else
      match r with
      | [] => [[c]]
      | h :: t => (c :: h) :: t

/-- JavaScript `s.split(sep)` for a one-character separator. -/
def jsSplit (s : String) (sep : Char) : List String :=
  (jsSplitChar sep s.data).map (fun cs => ⟨cs⟩)

/-- ASCII lowercasing of one character. -/
def jsToLowerChar (c : Char) : Char :=
  if 'A' ≤ c ∧ c ≤ 'Z' then Char.ofNat (c.toNat + 32) else c

/-- JavaScript `String.prototype.toLocaleLowerCase` restricted to ASCII — the value
types it is applied to are ASCII identifiers such as `string` and
`enum_of_int`. -/
def jsToLower (s : String) : String :=
  ⟨s.data.map jsToLowerChar⟩

/-- JavaScript `str.split('.')` followed by `.pop()`: the last dot-separated segment. -/
def lastDotSegment (s : String) : String :=
  ((jsSplit s '.').getLast?).getD ""

/-! Substring search agrees with the existence of a decomposition. -/

theorem charsPrefixOf_iff (pat : List Char) :
    ∀ s : List Char, charsPrefixOf pat s = true ↔ ∃ r, s = pat ++ r := by
  induction pat with
  | nil =>
    intro s
    simp only [charsPrefixOf, List.nil_append, true_iff]
    exact ⟨s, rfl⟩
  | cons a as ih =>
    intro s
    cases s with
    | nil =>
      simp only [charsPrefixOf, Bool.false_eq_true, false_iff]
      rintro ⟨r, hr⟩
      exact List.noConfusion hr
    | cons b bs =>
      simp only [charsPrefixOf, Bool.and_eq_true, decide_eq_true_eq, ih bs,
        List.cons_append]
      constructor
      · rintro ⟨hab, r, hr⟩
        exact ⟨r, by rw [hab, hr]⟩
      · rintro ⟨r, hr⟩
        injection hr with h1 h2
        exact ⟨h1.symm, r, h2⟩

theorem jsIndexOfAux_isSome_iff (pat : List Char) :
    ∀ (s : List Char) (i : Nat),
      (jsIndexOfAux pat s i).isSome = true ↔ ∃ l r, s = l ++ pat ++ r := by
  intro s
  induction s with
  | nil =>
    intro i
    rw [jsIndexOfAux]
    by_cases h : charsPrefixOf pat [] = true
    · rw [if_pos h]
      rcases (charsPrefixOf_iff pat []).mp h with ⟨r, hr⟩
      simp only [Option.isSome_some, true_iff]
      exact ⟨[], r, by simpa using hr⟩
    · rw [if_neg h]
      simp only [Option.isSome_none, Bool.false_eq_true, false_iff]
      rintro ⟨l, r, hlr⟩
      apply h
      rw [charsPrefixOf_iff]
      have h0 : (l ++ pat) ++ r = [] := by simpa using hlr.symm
      have h1 : l ++ pat = [] := (List.append_eq_nil.mp h0).1
      have h2 : pat = [] := (List.append_eq_nil.mp h1).2
      exact ⟨[], by simp [h2]⟩
  | cons c t ih =>
    intro i
    rw [jsIndexOfAux]
    by_cases h : charsPrefixOf pat (c :: t) = true
    · rw [if_pos h]
      rcases (charsPrefixOf_iff pat (c :: t)).mp h with ⟨r, hr⟩
      simp only [Option.isSome_some, true_iff]
      exact ⟨[], r, by simpa using hr⟩
    · rw [if_neg h]
      rw [ih (i + 1)]
      constructor
      · rintro ⟨l, r, hlr⟩
        exact ⟨c :: l, r, by simp [hlr]⟩
      · rintro ⟨l, r, hlr⟩
        cases l with
        | nil =>
          exfalso
          apply h
          rw [charsPrefixOf_iff]
          exact ⟨r, by simpa using hlr⟩
        | cons c' l' =>
          have hlr' : c :: t = c' :: (l' ++ pat ++ r) := by simpa using hlr
          injection hlr' with h1 h2
          exact ⟨l', r, h2⟩

theorem jsContains_iff (s pat : String) :
    jsContains s pat = true ↔ ∃ l r, s.data = l ++ pat.data ++ r := by
  unfold jsContains
  exact jsIndexOfAux_isSome_iff pat.data s.data 0

/-! ## Endpoint catalog and call resolver (`src/apiConfig.ts`, `src/service/OCAPIService.ts`) -/

/-- First binding of a key in a generic association list (JavaScript object
literals keyed by call/resource name). -/
def assocFind {α : Type} : List (String × α) → String → Option α
  | [], _ => none
  | (k, v) :: rest, key => if k = key then some v else assocFind rest key

/-- One entry of a call's `params` array in `apiConfig.ts`. -/
structure CallParam where
  id : String
  type : String
  use : String

/-- One call configuration under a resource's `availableCalls` in
`apiConfig.ts`.  Header values can be booleans (`x-dw-validate-existing`),
hence `JSValue`. -/
structure CallConfig where
  authorization : String
  headers : List (String × JSValue)
  method : String
  params : List CallParam
  path : String

/-- One resource configuration in `apiConfig.ts`. -/
structure ResourceConfig where
  api : String
  availableCalls : List (String × CallConfig)

/-- The shape of the `apiConfig` object literal. -/
structure APIConfig where
  clientId : String
  clientPassword : String
  resources : List (String × ResourceConfig)
  version : String

/-- The `apiConfig` object literal of `src/apiConfig.ts`, transcribed. -/
def apiConfig : APIConfig :=
  { clientId := "aaaaaaaaaaaaaaaaaaaaaaaaaaaaaa"
    clientPassword := "aaaaaaaaaaaaaaaaaaaaaaaaaaaaaa"
    resources :=
      [("systemObjectDefinitions",
        { api := "data"
          availableCalls :=
            [("get",
              { authorization := "BM_USER"
                headers := [("Content-Type", .str "application/json")]
                method := "GET"
                params := [{ id := "objectType", type := "string", use := "PATH_PARAMETER" }]
                path := "system_object_definitions/{objectType}" }),
             ("getAll",
              { authorization := "BM_USER"
                headers := [("Content-Type", .str "application/json")]
                method := "GET"
                params :=
                  [{ id := "select", type := "string", use := "QUERY_PARAMETER" },
                   { id := "count", type := "number", use := "QUERY_PARAMETER" }]
                path := "system_object_definitions" }),
             ("getAttributes",
              { authorization := "BM_USER"
                headers := [("Content-Type", .str "application/json")]
                method := "GET"
                params :=
                  [{ id := "select", type := "string", use := "QUERY_PARAMETER" },
                   { id := "objectType", type := "string", use := "PATH_PARAMETER" }]
                path := "system_object_definitions/{objectType}/attribute_definitions" }),
             ("createAttribute",
              { authorization := "BM_USER"
                headers :=
                  [("Content-Type", .str "application/json"),
                   ("x-dw-validate-existing", .bool true),
                   ("Accept", .str "application/json")]
                method := "PUT"
                params :=
                  [{ id := "id", type := "string", use := "PATH_PARAMETER" },
                   { id := "objectType", type := "string", use := "PATH_PARAMETER" }]
                path := "system_object_definitions/{objectType}/attribute_definitions/{id}" }),
             ("deleteAttribute",
              { authorization := "BM_USER"
                headers :=
                  [("Content-Type", .str "application/json"),
                   ("x-dw-validate-existing", .bool true),
                   ("Accept", .str "application/json")]
                method := "DELETE"
                params :=
                  [{ id := "id", type := "string", use := "PATH_PARAMETER" },
                   { id := "objectType", type := "string", use := "PATH_PARAMETER" }]
                path := "system_object_definitions/{objectType}/attribute_definitions/{id}" }),
             ("createAttributeGroup",
              { authorization := "BM_USER"
                headers :=
                  [("Content-Type", .str "application/json"),
                   ("x-dw-validate-existing", .bool true),
                   ("Accept", .str "application/json")]
                method := "PUT"
                params :=
                  [{ id := "id", type := "string", use := "PATH_PARAMETER" },
                   { id := "objectType", type := "string", use := "PATH_PARAMETER" }]
                path := "system_object_definitions/{objectType}/attribute_groups/{id}" }),
             ("getAttributeGroups",
              { authorization := "BM_USER"
                headers := [("Content-Type", .str "application/json")]
                method := "GET"
                params :=
                  [{ id := "select", type := "string", use := "QUERY_PARAMETER" },
                   { id := "objectType", type := "string", use := "PATH_PARAMETER" }]
                path := "system_object_definitions/{objectType}/attribute_groups" }),
             ("assignAttributeToGroup",
              { authorization := "BM_USER"
                headers := [("Content-Type", .str "application/json")]
                method := "GET"
                params :=
                  [{ id := "objectType", type := "string", use := "PATH_PARAMETER" },
                   { id := "groupId", type := "string", use := "PATH_PARAMETER" },
                   { id := "attributeId", type := "string", use := "PATH_PARAMETER" }]
                path := "system_object_definitions/{objectType}/attribute_groups/{groupId}/attribute_definitions/{attributeId}" })] })]
    version := "v18_8" }

/-- The sandbox connection configuration (`IDWConfig`), as produced by the
out-of-scope `getDWConfig` discovery; the resolver only reads it. -/
structure IDWConfig where
  endpoint : String
  ok : Bool
  password : String
  username : String

/-- The call-setup result (`ICallSetup`), with the default values assigned at
the top of `getCallSetup` (`HTTP_VERB.get` modelled as the string "get"). -/
structure ICallSetup where
  body : JSValue := .obj []
  callName : String := ""
  endpoint : String := ""
  headersContentType : String := "application/json"
  method : String := "get"
  setupErrMsg : String := ""
  setupError : Bool := false

/-- A thrown JavaScript fault (a rejected promise from an `async` method). -/
inductive JSError where
  | typeError : String → JSError
deriving DecidableEq, Repr

/-- Lines 140–151 of `OCAPIService.getCallSetup`: when no setup error was
recorded, consult the sandbox configuration; a not-ok configuration sets
`setupError` (and nothing else), otherwise the configured endpoint is
prepended. -/
def applyDWConfig (dwConfig : IDWConfig) (setupResult : ICallSetup) : ICallSetup :=
  if !setupResult.setupError then
    if !dwConfig.ok then { setupResult with setupError := true }
    else { setupResult with endpoint := dwConfig.endpoint ++ setupResult.endpoint }
  else setupResult

/-- The method `OCAPIService.getCallSetup` (lines 49–154), faithful to the source,
parameterized by the catalog and by the sandbox configuration that
`getDWConfig` would resolve to.  JavaScript truthiness of the `api` and
`path` strings is the non-empty check.  On line 98 the source invokes
`callConfig.forEach(...)`; `callConfig` is a plain object with no `forEach`
method, so whenever the call declares a non-empty `params` array the method
throws a `TypeError` instead of returning a setup result. -/
def getCallSetupWith (config : APIConfig) (dwConfig : IDWConfig)
    (resourceName callName : String) (callData : JSValue) :
    Except JSError ICallSetup :=
  let setupResult : ICallSetup := {}
  match assocFind config.resources resourceName with
  | some resConfig =>
    if resConfig.api ≠ "" then
      let setupResult :=
        { setupResult with endpoint := setupResult.endpoint ++ "/dw/" ++ resConfig.api ++ "/" }
      match assocFind resConfig.availableCalls callName with
      | some callConfig =>
        let setupResult :=
          if callConfig.path ≠ "" then
            { setupResult with endpoint := setupResult.endpoint ++ callConfig.path }
          else
            { setupResult with
                setupError := true
                setupErrMsg := setupResult.setupErrMsg
                  ++ "\nMissing call path in the apiConfig."
                  ++ "\n- OCAPI resource: " ++ resourceName
                  ++ "\n- Call type: " ++ callName }
        if callConfig.params.length ≠ 0 then
          .error (.typeError "callConfig.forEach is not a function")
        else
          .ok (applyDWConfig dwConfig setupResult)
      | none =>
        -- An unknown call name has no else branch in the source: no error is
        -- recorded and resolution continues with the partial endpoint.
        .ok (applyDWConfig dwConfig setupResult)
    else
      .ok (applyDWConfig dwConfig
        { setupResult with
            setupError := true
            setupErrMsg := setupResult.setupErrMsg
              ++ "\nNo API version was specified in the apiConfig object" })
  | none =>
    .ok (applyDWConfig dwConfig
      { setupResult with
          setupError := true
          setupErrMsg := setupResult.setupErrMsg
            ++ "\nNo setup was found in apiConfig for the specified resource" })

/-- The body of the parameter loop of `getCallSetup` (lines 98–126) for one
declared parameter, as evidently intended (`callConfig.params.forEach`).
Everything inside is verbatim from the source, including the slip on
line 110: `setupResult.endpoint.replace(replaceMe, ...)` is evaluated and its
result discarded, so a path placeholder is never actually substituted.
The error message concatenates the `param` object itself, which JavaScript
coerces to `[object Object]`. -/
def processCallParam (resourceName callName : String) (callData : JSValue)
    (acc : ICallSetup) (param : CallParam) : ICallSetup :=
  let v := callData.get param.id
  if v.truthy && (v.typeof = param.type) then
    if param.use = "PATH_PARAMETER"
        && jsContains acc.endpoint ("\x7b" ++ param.id ++ "\x7d") then
      -- `String.prototype.replace` returns a new string that the source
      -- never assigns back to `setupResult.endpoint`.
      acc
    else if param.use = "QUERY_PARAMETER" then
      let sep := if jsContains acc.endpoint "?" then "&" else "?"
      { acc with
          endpoint := acc.endpoint ++ sep
            ++ encodeURIComponent param.id ++ "="
            ++ encodeURIComponent v.toJSString }
    else acc
  else
    { acc with
        setupError := true
        setupErrMsg := acc.setupErrMsg
          ++ "\nMissing call parameter: [object Object]"
          ++ "\n- Resource: " ++ resourceName
          ++ "\n- Call type: " ++ callName }

/-- The method `getCallSetup` with the parameter loop iterating as evidently intended
(`callConfig.params.forEach(param => ...)` instead of the throwing
`callConfig.forEach(param => ...)` on line 98).  All other behavior —
including the discarded `replace` result on line 110 — is kept verbatim. -/
def getCallSetupIntendedIteration (config : APIConfig) (dwConfig : IDWConfig)
    (resourceName callName : String) (callData : JSValue) :
    Except JSError ICallSetup :=
  let setupResult : ICallSetup := {}
  match assocFind config.resources resourceName with
  | some resConfig =>
    if resConfig.api ≠ "" then
      let setupResult :=
        { setupResult with endpoint := setupResult.endpoint ++ "/dw/" ++ resConfig.api ++ "/" }
      match assocFind resConfig.availableCalls callName with
      | some callConfig =>
        let setupResult :=
          if callConfig.path ≠ "" then
            { setupResult with endpoint := setupResult.endpoint ++ callConfig.path }
          else
            { setupResult with
                setupError := true
                setupErrMsg := setupResult.setupErrMsg
                  ++ "\nMissing call path in the apiConfig."
                  ++ "\n- OCAPI resource: " ++ resourceName
                  ++ "\n- Call type: " ++ callName }
        let setupResult :=
          if callConfig.params.length ≠ 0 then
            callConfig.params.foldl (processCallParam resourceName callName callData) setupResult
          else setupResult
        .ok (applyDWConfig dwConfig setupResult)
      | none => .ok (applyDWConfig dwConfig setupResult)
    else
      .ok (applyDWConfig dwConfig
        { setupResult with
            setupError := true
            setupErrMsg := setupResult.setupErrMsg
              ++ "\nNo API version was specified in the apiConfig object" })
  | none =>
    .ok (applyDWConfig dwConfig
      { setupResult with
          setupError := true
          setupErrMsg := setupResult.setupErrMsg
            ++ "\nNo setup was found in apiConfig for the specified resource" })

/-- A resolved, usable sandbox configuration. -/
def dwOk : IDWConfig :=
  { endpoint := "https://host.example/s/-", ok := true, password := "pass", username := "user" }

/-- A missing/not-ok sandbox configuration. -/
def dwNotOk : IDWConfig :=
  { endpoint := "", ok := false, password := "", username := "" }

/-- JavaScript `String.prototype.endsWith`. -/
def jsEndsWith (s suffix : String) : Bool :=
  charsPrefixOf suffix.data.reverse s.data.reverse

/-- C1: the claim says that for every cataloged resource/call and every data
bag supplying all declared required parameters with the declared runtime
types, `getCallSetup` returns a result with `setupError` unset and an
endpoint free of residual placeholder braces.  The code cannot do this: with
a valid data bag for `systemObjectDefinitions.get` it rejects with a
`TypeError` (line 98 calls `callConfig.forEach` on a plain object), and even
under the evidently intended `callConfig.params.forEach` iteration the
result, while free of setup errors, still carries the raw `{objectType}`
placeholder because line 110 discards the result of `String.replace`. -/
theorem c1_getCallSetup_rejects_or_leaves_placeholder :
    getCallSetupWith apiConfig dwOk "systemObjectDefinitions" "get"
        (.obj [("objectType", .str "Product")])
      = .error (.typeError "callConfig.forEach is not a function")
    ∧ getCallSetupIntendedIteration apiConfig dwOk "systemObjectDefinitions" "get"
        (.obj [("objectType", .str "Product")])
      = .ok { endpoint := "https://host.example/s/-/dw/data/system_object_definitions/{objectType}" }
    ∧ jsContains "https://host.example/s/-/dw/data/system_object_definitions/{objectType}" "\x7b"
      = true := by
  exact ⟨rfl, rfl, rfl⟩

/-- C2: the claim says `getCallSetup` never throws and that each failure mode
yields `setupError = true` with a populated `setupErrMsg`.  Three concrete
evaluations of the embedded code refute this: (a) a fully valid request for
`getAll` rejects with a `TypeError` (line 98); (b) an unknown call name on a
known resource returns `setupError = false` and an empty message, because the
lookup of `callName` has no else branch; (c) an unknown call name combined
with a not-ok connection configuration returns `setupError = true` but an
empty `setupErrMsg`, because the connection branch (line 145) sets only the
flag. -/
theorem c2_getCallSetup_failure_modes_diverge :
    getCallSetupWith apiConfig dwOk "systemObjectDefinitions" "getAll"
        (.obj [("select", .str "(**)"), ("count", .num 500)])
      = .error (.typeError "callConfig.forEach is not a function")
    ∧ getCallSetupWith apiConfig dwOk "systemObjectDefinitions" "noSuchCall" (.obj [])
      = .ok { endpoint := "https://host.example/s/-/dw/data/" }
    ∧ getCallSetupWith apiConfig dwNotOk "systemObjectDefinitions" "noSuchCall" (.obj [])
      = .ok { endpoint := "/dw/data/", setupError := true, setupErrMsg := "" } := by
  exact ⟨rfl, rfl, rfl⟩

/-- The hypothetical catalog of claim C3: one resource whose `getAll` call
declares exactly one required query parameter `select` and resolves, together
with the connection endpoint of `c3DWConfig`, to the base endpoint of the
claim (the example host followed by `dw/data/v20_4/`) and path
`system_object_definitions`. -/
def c3ApiConfig : APIConfig :=
  { clientId := "aaaaaaaaaaaaaaaaaaaaaaaaaaaaaa"
    clientPassword := "aaaaaaaaaaaaaaaaaaaaaaaaaaaaaa"
    resources :=
      [("systemObjectDefinitions",
        { api := "data/v20_4"
          availableCalls :=
            [("getAll",
              { authorization := "BM_USER"
                headers := [("Content-Type", .str "application/json")]
                method := "GET"
                params := [{ id := "select", type := "string", use := "QUERY_PARAMETER" }]
                path := "system_object_definitions" })] })]
    version := "v20_4" }

/-- The connection configuration of claim C3. -/
def c3DWConfig : IDWConfig :=
  { endpoint := "https://host.example/s/-", ok := true, password := "pass", username := "user" }

/-- C3, counterexample: with the claim's call configuration and
`select = "(**)"`, the resolver as written rejects with a `TypeError`
(line 98) rather than producing any endpoint, and even the evidently intended
parameter iteration produces an endpoint ending in `?select=(**)` — not in
the claimed `?select=%28%2A%2A%29`, because `encodeURIComponent` leaves `(`,
`*` and `)` unescaped. -/
theorem c3_select_encoding_counterexample :
    getCallSetupWith c3ApiConfig c3DWConfig "systemObjectDefinitions" "getAll"
        (.obj [("select", .str "(**)")])
      = .error (.typeError "callConfig.forEach is not a function")
    ∧ getCallSetupIntendedIteration c3ApiConfig c3DWConfig "systemObjectDefinitions" "getAll"
        (.obj [("select", .str "(**)")])
      = .ok { endpoint := "https://host.example/s/-/dw/data/v20_4/system_object_definitions?select=(**)" }
    ∧ jsEndsWith "https://host.example/s/-/dw/data/v20_4/system_object_definitions?select=(**)"
        "system_object_definitions?select=%28%2A%2A%29" = false := by
  exact ⟨rfl, rfl, rfl⟩

/-- C3, amended: under the evidently intended parameter iteration the
resolver appends the single query parameter as
`?select=(**)` — `encodeURIComponent` percent-encodes nothing in `(**)`
since `(`, `*` and `)` are in its unescaped set — so the endpoint ends with
`system_object_definitions?select=(**)`. -/
theorem c3_select_encoding_amended :
    getCallSetupIntendedIteration c3ApiConfig c3DWConfig "systemObjectDefinitions" "getAll"
        (.obj [("select", .str "(**)")])
      = .ok { endpoint := "https://host.example/s/-/dw/data/v20_4/system_object_definitions?select=(**)" }
    ∧ encodeURIComponent "(**)" = "(**)"
    ∧ jsEndsWith "https://host.example/s/-/dw/data/v20_4/system_object_definitions?select=(**)"
        "system_object_definitions?select=(**)" = true := by
  exact ⟨rfl, rfl, rfl⟩

/-! ## Document models (`src/documents/ObjectAttributeDefinition.ts`) -/

/-- JavaScript `a || b`. -/
def jsOr (a b : JSValue) : JSValue := if a.truthy then a else b

/-- The `MEMBER_MAP` instance field of `ObjectAttributeDefinition`: local
member name → wire (snake_case) document field name.  Only members whose
names differ on the wire are listed. -/
def MEMBER_MAP : List (String × String) :=
  [("defaultValue", "default_value"),
   ("displayName", "display_name"),
   ("effectiveId", "effective_id"),
   ("externallyDefined", "externally_defined"),
   ("externallyManaged", "externally_managed"),
   ("fieldHeight", "field_height"),
   ("fieldWidth", "field_width"),
   ("maxValue", "max_value"),
   ("minLength", "min_length"),
   ("minValue", "min_value"),
   ("multiValueType", "multi_value_type"),
   ("orderRequired", "order_required"),
   ("readOnly", "read_only"),
   ("regularExpression", "regular_expression"),
   ("requiresEncoding", "requires_encoding"),
   ("setValueType", "set_value_type"),
   ("siteSpecific", "site_specific"),
   ("valueDefinitions", "value_definitions"),
   ("valueType", "value_type")]

/-- Modelled from the spec: the `ObjectAttributeValueDefinition` document
model (its source file is not under `src/`).  Per the data model it parses
the raw wire object into a `value` and a localized display value (with the
localized-default invariant), and the tree code additionally reads an `id`
member.  The result is a class instance (always truthy, `typeof` object). -/
def mkObjectAttributeValueDefinition (args : JSValue) : JSValue :=
  .oavdInst (args.get "id") (args.get "value")
    (jsOr (args.get "display_value") (.obj [("default", .str "")]))

/-- An `ObjectAttributeDefinition` class instance: its own enumerable
properties in insertion order (the `MEMBER_MAP` field initializer runs
first, then the constructor body's assignments in source order). -/
abbrev ObjectAttributeDefinition := List (String × JSValue)

/-- The `ObjectAttributeDefinition` constructor (lines 89–124).  Each member
is `args.<wire_name> || <default>`; `defaultValue` is always the parsed
value-definition instance, because a freshly constructed object is truthy and
the `|| new ObjectAttributeValueDefinition({})` alternative is never taken. -/
def ObjectAttributeDefinition.ofArgs (args : JSValue) : ObjectAttributeDefinition :=
  [("MEMBER_MAP", .obj (MEMBER_MAP.map (fun p => (p.1, JSValue.str p.2)))),
   ("defaultValue", mkObjectAttributeValueDefinition (args.get "default_value")),
   ("description", jsOr (args.get "description") (.obj [("default", .str "")])),
   ("displayName", jsOr (args.get "display_name") (.obj [("default", .str "")])),
   ("effectiveId", jsOr (args.get "effective_id") (.str "")),
   ("externallyDefined", jsOr (args.get "externally_defined") (.bool false)),
   ("externallyManaged", jsOr (args.get "externally_managed") (.bool false)),
   ("fieldHeight", jsOr (args.get "field_height") (.num (-1))),
   ("fieldWidth", jsOr (args.get "field_width") (.num (-1))),
   ("id", jsOr (args.get "id") (.str "")),
   ("key", jsOr (args.get "key") (.bool false)),
   ("link", jsOr (args.get "link") (.str "")),
   ("localizable", jsOr (args.get "localizable") (.bool false)),
   ("mandatory", jsOr (args.get "mandatory") (.bool false)),
   ("maxValue", jsOr (args.get "max_value") .null),
   ("minLength", jsOr (args.get "min_length") (.num (-1))),
   ("minValue", jsOr (args.get "min_value") .null),
   ("multiValueType", jsOr (args.get "multi_value_type") (.bool false)),
   ("orderRequired", jsOr (args.get "order_required") (.bool false)),
   ("queryable", jsOr (args.get "queryable") (.bool false)),
   ("readOnly", jsOr (args.get "read_only") (.bool false)),
   ("regularExpression", jsOr (args.get "regular_expression") (.str "")),
   ("requiresEncoding", jsOr (args.get "requires_encoding") (.bool false)),
   ("scale", jsOr (args.get "scale") (.num (-1))),
   ("searchable", jsOr (args.get "searchable") (.bool false)),
   ("setValueType", jsOr (args.get "set_value_type") (.str "")),
   ("siteSpecific", jsOr (args.get "site_specific") (.bool false)),
   ("system", jsOr (args.get "system") (.bool false)),
   ("unit", jsOr (args.get "unit") (.obj [("default", .str "")])),
   ("valueDefinitions", jsOr (args.get "value_definitions") (.arr [])),
   ("valueType", jsOr (args.get "value_type") (.str "")),
   ("visible", jsOr (args.get "visible") (.bool false)),
   ("includedFields", jsOr (args.get "includeFields") (.arr []))]

/-- Member access `this[name]` on an instance. -/
def ObjectAttributeDefinition.member (self : ObjectAttributeDefinition)
    (name : String) : JSValue :=
  (assocFind self name).getD (.undef)

/-- JavaScript object property assignment `o[key] = v`: overwrites the first
existing binding, otherwise appends. -/
def jsObjSet (fields : List (String × JSValue)) (key : String) (v : JSValue) :
    List (String × JSValue) :=
  match fields with
  | [] => [(key, v)]
  | (k, w) :: rest =>
    if k = key then (k, v) :: rest else (k, w) :: jsObjSet rest key v

/-- One iteration of the `memberNames.forEach` loop of `getDocument`
(lines 158–169): a member that `MEMBER_MAP` maps and whose value is truthy is
written to the document under its wire name; everything else contributes
nothing (the callback's trailing object literal is discarded by `forEach`). -/
def docStep (self : ObjectAttributeDefinition)
    (documentObj : List (String × JSValue)) (localPropName : String) :
    List (String × JSValue) :=
  if (MEMBER_MAP.map (fun p => p.1)).contains localPropName
      && (self.member localPropName).truthy then
    jsObjSet documentObj ((assocFind MEMBER_MAP localPropName).getD "")
      (self.member localPropName)
  else documentObj

/-- The method `ObjectAttributeDefinition.getDocument` (lines 138–172), up to the final
`JSON.stringify`: the document object assembled from the instance members.
The `Object.keys(this).filter(key => typeof key !== 'function')` filter keeps
every key, since keys are strings. -/
def ObjectAttributeDefinition.getDocument (self : ObjectAttributeDefinition)
    (includeFields : List String) :
    List (String × JSValue) :=
  let memberNames := (self.map (fun p => p.1)).filter (fun _ => true)
  let memberNames :=
    if includeFields.length ≠ 0 then
      memberNames.filter (fun name => includeFields.contains name)
    else if (self.member "includedFields").lengthTruthy then
      memberNames.filter (fun name =>
        ((self.member "includedFields").arrElems).any
          (fun v => v.strictEq (.str name)))
    else memberNames
  memberNames.foldl (docStep self) []

/-- The guard of `MetadataViewProvider.getAttributeDefinitionChildren`
(ConfigHelper.ts lines 661–668): a secondary OCAPI fetch
(`ocapiHelper.getExpandedAttribute`) is issued exactly when
`objAttrDef.valueType.indexOf('enum') > -1`; the result counts how many such
fetches one expansion performs.  The constructor always produces a string
`valueType` from string (or absent/falsy) wire input; a truthy non-string
would make JavaScript throw on `.indexOf`, and is totalized to no fetch. -/
def getAttributeDefinitionSecondaryFetchCount (objAttrDef : ObjectAttributeDefinition) :
    Nat :=
  match objAttrDef.member "valueType" with
  | .str s => if jsContains s "enum" then 1 else 0
  | _ => 0

/-- C6: expanding an attribute-definition node issues exactly one secondary
value-definition fetch when (and only when) the attribute's value type
contains the substring `enum`, and never more than one. -/
theorem c6_enum_triggers_one_secondary_fetch (args : JSValue) (vt : String)
    (hvt : (ObjectAttributeDefinition.ofArgs args).member "valueType" = .str vt) :
    (getAttributeDefinitionSecondaryFetchCount (ObjectAttributeDefinition.ofArgs args) = 1
      ↔ ∃ l r, vt.data = l ++ "enum".data ++ r)
    ∧ getAttributeDefinitionSecondaryFetchCount (ObjectAttributeDefinition.ofArgs args) ≤ 1 := by
  unfold getAttributeDefinitionSecondaryFetchCount
  rw [hvt]
  show ((if jsContains vt "enum" then 1 else 0) = 1 ↔ _)
    ∧ (if jsContains vt "enum" then 1 else 0) ≤ 1
  by_cases h : jsContains vt "enum" = true
  · rw [if_pos h]
    exact ⟨(iff_of_true rfl ((jsContains_iff vt "enum").mp h)), by omega⟩
  · rw [if_neg h]
    refine ⟨iff_of_false (by omega) ?_, by omega⟩
    intro hex
    exact h ((jsContains_iff vt "enum").mpr hex)

/-- Witness for C6 at the claim's concrete rows: the `a2` row with
`value_type: "enum_of_int"` triggers exactly one secondary fetch (via the
theorem), and the `a1` row with `value_type: "string"` triggers none. -/
theorem c6_enum_triggers_one_secondary_fetch_witness :
    getAttributeDefinitionSecondaryFetchCount
        (ObjectAttributeDefinition.ofArgs
          (.obj [("id", .str "a2"), ("value_type", .str "enum_of_int")])) = 1
    ∧ getAttributeDefinitionSecondaryFetchCount
        (ObjectAttributeDefinition.ofArgs
          (.obj [("id", .str "a1"), ("value_type", .str "string")])) = 0 := by
  constructor
  · exact (c6_enum_triggers_one_secondary_fetch
        (.obj [("id", .str "a2"), ("value_type", .str "enum_of_int")])
        "enum_of_int" rfl).1.mpr ⟨[], "_of_int".data, rfl⟩
  · rfl

/-- A wire-typed localized-string field: absent, `null`, or a localization
object carrying a `default` locale entry, as the OCAPI document type
declares. -/
def localizedWireField (v : JSValue) : Prop :=
  v = .undef ∨ v = .null ∨
    ∃ fs, v = .obj fs ∧ (JSValue.assocGet fs "default").isSome = true

/-- The invariant claimed for a constructed localized member: a non-null,
non-undefined object with a `default` entry. -/
def localizedMemberOK (m : JSValue) : Prop :=
  m ≠ .null ∧ m ≠ .undef ∧
    ∃ fs, m = .obj fs ∧ (JSValue.assocGet fs "default").isSome = true

/-- The `x || { default: '' }` pattern preserves the localized invariant and
falls back to the empty default object exactly when the wire value is
falsy. -/
theorem jsOr_localized (v : JSValue) (h : localizedWireField v) :
    localizedMemberOK (jsOr v (.obj [("default", .str "")]))
    ∧ (v.truthy = false →
        jsOr v (.obj [("default", .str "")]) = .obj [("default", .str "")]) := by
  rcases h with rfl | rfl | ⟨fs, rfl, hfs⟩
  · refine ⟨⟨by simp [jsOr, JSValue.truthy], by simp [jsOr, JSValue.truthy],
      [("default", .str "")], by simp [jsOr, JSValue.truthy], by simp [JSValue.assocGet]⟩,
      fun _ => by simp [jsOr, JSValue.truthy]⟩
  · refine ⟨⟨by simp [jsOr, JSValue.truthy], by simp [jsOr, JSValue.truthy],
      [("default", .str "")], by simp [jsOr, JSValue.truthy], by simp [JSValue.assocGet]⟩,
      fun _ => by simp [jsOr, JSValue.truthy]⟩
  · refine ⟨⟨by simp [jsOr, JSValue.truthy], by simp [jsOr, JSValue.truthy],
      fs, by simp [jsOr, JSValue.truthy], hfs⟩, fun hcontr => ?_⟩
    simp [JSValue.truthy] at hcontr

/-- C9: for every wire-typed raw document — in particular one where the
localized fields are absent — the constructed attribute definition's
`description`, `displayName` and `unit` members are objects carrying a
`default` entry, never `null`/`undefined`, and equal `{ default: '' }`
whenever the corresponding wire field is falsy or missing. -/
theorem c9_localized_members_default (args : JSValue)
    (hd : localizedWireField (args.get "description"))
    (hn : localizedWireField (args.get "display_name"))
    (hu : localizedWireField (args.get "unit")) :
    (localizedMemberOK ((ObjectAttributeDefinition.ofArgs args).member "description")
      ∧ ((args.get "description").truthy = false →
          (ObjectAttributeDefinition.ofArgs args).member "description"
            = .obj [("default", .str "")]))
    ∧ (localizedMemberOK ((ObjectAttributeDefinition.ofArgs args).member "displayName")
      ∧ ((args.get "display_name").truthy = false →
          (ObjectAttributeDefinition.ofArgs args).member "displayName"
            = .obj [("default", .str "")]))
    ∧ (localizedMemberOK ((ObjectAttributeDefinition.ofArgs args).member "unit")
      ∧ ((args.get "unit").truthy = false →
          (ObjectAttributeDefinition.ofArgs args).member "unit"
            = .obj [("default", .str "")])) := by
  have e1 : (ObjectAttributeDefinition.ofArgs args).member "description"
      = jsOr (args.get "description") (.obj [("default", .str "")]) := by
    simp [ObjectAttributeDefinition.member, ObjectAttributeDefinition.ofArgs, assocFind]
  have e2 : (ObjectAttributeDefinition.ofArgs args).member "displayName"
      = jsOr (args.get "display_name") (.obj [("default", .str "")]) := by
    simp [ObjectAttributeDefinition.member, ObjectAttributeDefinition.ofArgs, assocFind]
  have e3 : (ObjectAttributeDefinition.ofArgs args).member "unit"
      = jsOr (args.get "unit") (.obj [("default", .str "")]) := by
    simp [ObjectAttributeDefinition.member, ObjectAttributeDefinition.ofArgs, assocFind]
  rw [e1, e2, e3]
  exact ⟨jsOr_localized _ hd, jsOr_localized _ hn, jsOr_localized _ hu⟩

/-- Witness for C9 at the empty raw document (all localized fields absent). -/
theorem c9_localized_members_default_witness :
    localizedMemberOK ((ObjectAttributeDefinition.ofArgs (.obj [])).member "description")
    ∧ (ObjectAttributeDefinition.ofArgs (.obj [])).member "displayName"
        = .obj [("default", .str "")]
    ∧ (ObjectAttributeDefinition.ofArgs (.obj [])).member "unit"
        = .obj [("default", .str "")] := by
  refine ⟨?_, ?_, ?_⟩
  · exact (c9_localized_members_default (.obj [])
      (Or.inl rfl) (Or.inl rfl) (Or.inl rfl)).1.1
  · exact (c9_localized_members_default (.obj [])
      (Or.inl rfl) (Or.inl rfl) (Or.inl rfl)).2.1.2 rfl
  · exact (c9_localized_members_default (.obj [])
      (Or.inl rfl) (Or.inl rfl) (Or.inl rfl)).2.2.2 rfl

/-! ### Lookup lemmas for the assembled document object -/

theorem assocFind_jsObjSet (fields : List (String × JSValue)) (key k : String) (v : JSValue) :
    assocFind (jsObjSet fields key v) k
      = if key = k then some v else assocFind fields k := by
  induction fields with
  | nil =>
    by_cases h : key = k
    · simp [jsObjSet, assocFind, h]
    · simp [jsObjSet, assocFind, h]
  | cons p rest ih =>
    obtain ⟨pk, pv⟩ := p
    by_cases h1 : pk = key
    · subst h1
      by_cases h2 : pk = k
      · simp [jsObjSet, assocFind, h2]
      · simp [jsObjSet, assocFind, h2]
    · by_cases h2 : pk = k
      · subst h2
        have hk : ¬ (key = pk) := fun hh => h1 hh.symm
        simp [jsObjSet, assocFind, h1, hk]
      · simp [jsObjSet, assocFind, h1, h2, ih]

/-- Whether processing member `name` writes document key `k`: the member is
mapped, truthy, and its wire name is `k`. -/
def emitsTo (self : ObjectAttributeDefinition) (k name : String) : Bool :=
  ((MEMBER_MAP.map (fun p => p.1)).contains name && (self.member name).truthy)
    && ((assocFind MEMBER_MAP name).getD "" = k)

theorem assocFind_docStep (self : ObjectAttributeDefinition)
    (doc : List (String × JSValue)) (name k : String) :
    assocFind (docStep self doc name) k
      = if emitsTo self k name then some (self.member name)
        else assocFind doc k := by
  unfold docStep emitsTo
  by_cases hc : ((MEMBER_MAP.map (fun p => p.1)).contains name
      && (self.member name).truthy) = true
  · rw [if_pos hc, assocFind_jsObjSet, hc]
    by_cases hw : (assocFind MEMBER_MAP name).getD "" = k
    · rw [if_pos hw, if_pos (by simp [hw])]
    · rw [if_neg hw, if_neg (by simp [hw])]
  · rw [if_neg hc]
    rw [if_neg (by simp only [Bool.and_eq_true] at hc ⊢; tauto)]

/-- The last member of `names` (in processing order) that writes document
key `k`; JavaScript object assignment lets later writes win. -/
def lastEmitter (self : ObjectAttributeDefinition) (k : String) :
    List String → Option String
  | [] => none
  | n :: rest =>
    match lastEmitter self k rest with
    | some m => some m
    | none => if emitsTo self k n then some n else none

theorem assocFind_docFold (self : ObjectAttributeDefinition) (names : List String) :
    ∀ (acc : List (String × JSValue)) (k : String),
      assocFind (names.foldl (docStep self) acc) k
        = match lastEmitter self k names with
          | some n => some (self.member n)
          | none => assocFind acc k := by
  induction names with
  | nil => intro acc k; simp [lastEmitter]
  | cons n rest ih =>
    intro acc k
    rw [List.foldl_cons, ih]
    show _ = (match lastEmitter self k (n :: rest) with
      | some m => some (self.member m)
      | none => assocFind acc k)
    rw [lastEmitter]
    cases hf : lastEmitter self k rest with
    | some m => simp
    | none =>
      simp only []
      rw [assocFind_docStep]
      cases he : emitsTo self k n <;> simp [he]

/-- With no requested field restriction and an empty `includedFields`
member, `getDocument` processes every instance member. -/
theorem getDocument_no_restriction (self : ObjectAttributeDefinition)
    (hinc : (self.member "includedFields").lengthTruthy = false) :
    self.getDocument [] = (self.map (fun p => p.1)).foldl (docStep self) [] := by
  unfold ObjectAttributeDefinition.getDocument
  simp [hinc, List.filter_true]

/-- C7, counterexample: the wire field `read_only` is present in the input
(with value `false`), is mapped by `MEMBER_MAP`, yet is absent from the
projected document, because `getDocument` skips members with falsy values;
and the present `default_value` field is emitted as the re-parsed
value-definition instance, not as the original wire value. -/
theorem c7_wire_projection_counterexample :
    assocFind
        ((ObjectAttributeDefinition.ofArgs
          (.obj [("read_only", .bool false),
                 ("default_value", .obj [("value", .str "x")])])).getDocument [])
        "read_only" = none
    ∧ assocFind
        ((ObjectAttributeDefinition.ofArgs
          (.obj [("read_only", .bool false),
                 ("default_value", .obj [("value", .str "x")])])).getDocument [])
        "default_value"
        = some (.oavdInst .undef (.str "x") (.obj [("default", .str "")]))
    ∧ JSValue.oavdInst .undef (.str "x") (.obj [("default", .str "")])
        ≠ .obj [("value", .str "x")] := by
  refine ⟨rfl, rfl, fun h => JSValue.noConfusion h⟩

set_option maxHeartbeats 2000000 in
/-- C7, amended: with no field restriction (empty `includeFields` argument
and empty `includedFields` member), the projected document contains, under
its wire name, every `MEMBER_MAP`-mapped member whose constructed value is
truthy — for every mapped field other than `default_value` this is exactly
the wire input value whenever that value was present and truthy — and omits
every mapped member whose constructed value is falsy. -/
theorem c7_wire_projection_amended (args : JSValue) (localName wireName : String)
    (hpair : (localName, wireName) ∈ MEMBER_MAP)
    (hinc : ((ObjectAttributeDefinition.ofArgs args).member "includedFields").lengthTruthy
      = false) :
    (localName ≠ "defaultValue" → (args.get wireName).truthy = true →
        assocFind ((ObjectAttributeDefinition.ofArgs args).getDocument []) wireName
          = some (args.get wireName))
    ∧ (((ObjectAttributeDefinition.ofArgs args).member localName).truthy = false →
        assocFind ((ObjectAttributeDefinition.ofArgs args).getDocument []) wireName
          = none) := by
  fin_cases hpair <;>
    constructor <;>
    first
      | (intro hne htr
         first
           | exact absurd rfl hne
           | (rw [getDocument_no_restriction _ hinc, assocFind_docFold]
              simp [ObjectAttributeDefinition.ofArgs, lastEmitter, emitsTo, assocFind,
                MEMBER_MAP, htr, ObjectAttributeDefinition.member, List.contains,
                List.elem, jsOr]))
      | (intro hft
         rw [getDocument_no_restriction _ hinc, assocFind_docFold]
         simp [ObjectAttributeDefinition.member, ObjectAttributeDefinition.ofArgs,
           assocFind, jsOr, mkObjectAttributeValueDefinition, JSValue.truthy] at hft
         all_goals
           simp [ObjectAttributeDefinition.ofArgs, lastEmitter, emitsTo, assocFind,
             MEMBER_MAP, hft, ObjectAttributeDefinition.member, List.contains,
             List.elem, jsOr, mkObjectAttributeValueDefinition, JSValue.truthy])

/-- Witness for C7 (amended): a raw document with `min_length: 5` projects
`min_length` back with its value preserved, and its absent `read_only` field
(falsy member) is omitted. -/
theorem c7_wire_projection_amended_witness :
    assocFind
        ((ObjectAttributeDefinition.ofArgs (.obj [("min_length", .num 5)])).getDocument [])
        "min_length" = some (.num 5)
    ∧ assocFind
        ((ObjectAttributeDefinition.ofArgs (.obj [("min_length", .num 5)])).getDocument [])
        "read_only" = none := by
  constructor
  · exact (c7_wire_projection_amended (.obj [("min_length", .num 5)])
      "minLength" "min_length" (by decide) rfl).1 (by decide) rfl
  · exact (c7_wire_projection_amended (.obj [("min_length", .num 5)])
      "readOnly" "read_only" (by decide) rfl).2 rfl

/-! ## Tree materialization (`src/components/MetadataViewProvider.ts`) -/

/-- The host editor's collapsible-state enumeration (`vscode.TreeItemCollapsibleState`):
`None` renders a non-expandable item. -/
inductive TreeItemCollapsibleState where
  | None : TreeItemCollapsibleState
  | Collapsed : TreeItemCollapsibleState
  | Expanded : TreeItemCollapsibleState
deriving DecidableEq, Repr

/-- String content of a string value (used by spec-modelled parsers). -/
def jsStrOf : JSValue → String
  | .str s => s
  | _ => ""

/-- Integer content of a number value (used by spec-modelled parsers). -/
def jsIntOf : JSValue → Int
  | .num n => n
  | _ => 0

/-- Modelled from the spec: the `ObjectTypeDefinition` document model
(`documents/ObjectTypeDefinition.ts` is not under `src/`).  Per the data
model it carries the object type name and the pre-fetched counts of
attribute definitions and attribute groups. -/
structure ObjectTypeDefinition where
  objectType : String
  attributeDefinitionCount : Int
  attributeGroupCount : Int

/-- Modelled from the spec: parsing a raw wire row into an
`ObjectTypeDefinition`. -/
def ObjectTypeDefinition.ofRaw (raw : JSValue) : ObjectTypeDefinition :=
  { objectType := jsStrOf (raw.get "object_type")
    attributeDefinitionCount := jsIntOf (raw.get "attribute_definition_count")
    attributeGroupCount := jsIntOf (raw.get "attribute_group_count") }

/-- Modelled from the spec: the `ObjectAttributeGroup` document model
(`documents/ObjectAttributeGroup.ts` is not under `src/`); the tree code
under verification only stores it on a node, so the model keeps the raw wire
object it was parsed from. -/
structure ObjectAttributeGroup where
  raw : JSValue

/-- Modelled from the spec: a tree node (`components/MetadataNode.ts` is not
under `src/`): an identity/label, an expandability flag (the collapsible
state; `None` is non-expandable), a dot-joined parent lineage string, and at
most one carried payload whose kind is the node's variant tag.  Constructor
arguments mirror the `MetadataNode(name, collapsibleState, options)` calls in
the provider. -/
structure MetadataNode where
  name : JSValue
  collapsibleState : TreeItemCollapsibleState
  parentId : String := ""
  displayDescription : JSValue := .undef
  baseNodeName : Option String := none
  parentContainer : Option String := none
  objectTypeDefinition : Option ObjectTypeDefinition := none
  objectAttributeDefinition : Option ObjectAttributeDefinition := none
  objectAttributeGroup : Option ObjectAttributeGroup := none
  stringList : Option (List String) := none

/-- Modelled from the spec: the node's variant tag equals the kind of the
payload it carries (`nodeType` in the provider's dispatch). -/
def MetadataNode.nodeType (n : MetadataNode) : String :=
  if n.objectAttributeDefinition.isSome then "objectAttributeDefinition"
  else if n.objectAttributeGroup.isSome then "objectAttributeGroup"
  else if n.objectTypeDefinition.isSome then "objectTypeDefinition"
  else if n.parentContainer.isSome then "parentContainer"
  else if n.baseNodeName.isSome then "baseNodeName"
  else if n.stringList.isSome then "stringList"
  else "leaf"

/-- Modelled from the spec: a node is expandable unless its collapsible
state is `None`. -/
def MetadataNode.expandable (n : MetadataNode) : Bool :=
  n.collapsibleState ≠ TreeItemCollapsibleState.None

/-- The attribute-definitions branch of
`getAttributeOrGroupContainerChildren` (lines 275–322), as a function of the
OCAPI response (`_callResult`); the call issuance itself is transport. -/
def attributeContainerChildren (element : MetadataNode) (objectType : String)
    (callResult : JSValue) : List MetadataNode :=
  if (callResult.get "error").truthy = false
      ∧ (callResult.get "data").typeof ≠ "undefined"
      ∧ (callResult.get "data").isArray = true then
    ((callResult.get "data").arrElems).map (fun resultObj =>
      { name := resultObj.get "id"
        collapsibleState := .Collapsed
        parentId := element.parentId ++ "." ++ objectType
        objectAttributeDefinition := some (ObjectAttributeDefinition.ofArgs resultObj)
        displayDescription :=
          if (resultObj.get "display_name").truthy then
            (resultObj.get "display_name").get "default"
          else .str "" })
  else
    [{ name := .str "Unable to load...", collapsibleState := .None,
       parentId := "root.systemObjectDefinitions" ++ "." ++ objectType }]

/-- The attribute-groups branch of `getAttributeOrGroupContainerChildren`
(lines 323–383), as a function of the OCAPI response. -/
def groupContainerChildren (element : MetadataNode) (objectType : String)
    (callResult : JSValue) : List MetadataNode :=
  if (callResult.get "error").truthy = false
      ∧ (callResult.get "data").typeof ≠ "undefined"
      ∧ (callResult.get "data").isArray = true then
    ((callResult.get "data").arrElems).map (fun resultObj =>
      { name := resultObj.get "id"
        collapsibleState := .Collapsed
        parentId := element.parentId ++ "." ++ objectType
        objectAttributeGroup := some ⟨resultObj⟩
        displayDescription :=
          if (resultObj.get "display_name").truthy then
            (resultObj.get "display_name").get "default"
          else .str "" })
  else if (callResult.get "error").truthy = false
      ∧ (callResult.get "count").typeof ≠ "undefined"
      ∧ (callResult.get "count").strictEq (.num 0) = true then
    [{ name := .str "No attribute groups defined", collapsibleState := .None,
       parentId := element.parentId ++ "." ++ objectType }]
  else
    [{ name := .str "Unable to load...", collapsibleState := .None,
       parentId := element.parentId ++ "." ++ objectType }]

/-- The method `MetadataViewProvider.getAttributeOrGroupContainerChildren`
(lines 264–384): derives the object type from the node's lineage, chooses
the attribute or group branch by the node's label, and maps the given OCAPI
response to child nodes.  (`path.pop()` is also used for `parentType`, which
only feeds the call setup.) -/
def getAttributeOrGroupContainerChildren (element : MetadataNode)
    (callResult : JSValue) : List MetadataNode :=
  let path := jsSplit element.parentId '.'
  let objectType := (path.getLast?).getD ""
  let isAttribute := !(element.name.strictEq (.str "Attribute Groups"))
  if isAttribute then attributeContainerChildren element objectType callResult
  else groupContainerChildren element objectType callResult

/-- The method `MetadataViewProvider.getObjectDefinitionChildren` (lines 528–557): an
object-type node fans out into the two parent containers; both containers'
collapsible state is `None` exactly when the lineage mentions
`customObjectDefinitions`, and each is annotated with the pre-fetched
count. -/
def getObjectDefinitionChildren (element : MetadataNode) : List MetadataNode :=
  let displayTextMap :=
    [("objectAttributeDefinitions", "Attribute Definitions"),
     ("objectAttributeGroups", "Attribute Groups")]
  let otd := element.objectTypeDefinition.getD
    { objectType := "", attributeDefinitionCount := 0, attributeGroupCount := 0 }
  displayTextMap.map (fun ctnr =>
    { name := .str ctnr.2
      collapsibleState :=
        if jsContains element.parentId "customObjectDefinitions" then .None
        else .Collapsed
      displayDescription := .str
        (if ctnr.1 = "objectAttributeDefinitions" then
          toString otd.attributeDefinitionCount
        else toString otd.attributeGroupCount)
      parentContainer := some ctnr.1
      parentId := element.parentId ++ "." ++ otd.objectType })

/-- The method `MetadataViewProvider.getBaseNodeChildren` (lines 392–443): the
site-preferences category delegates to `SitePreferencesHelper` (passed in as
`spAllPreferences`); otherwise the `getAll` response rows are filtered by the
object-type discriminator and mapped to object-type nodes — and when the
response carries no `data` array, the function falls off the end, resolving
to `undefined` (`none`). -/
def getBaseNodeChildren (spAllPreferences : Option (List MetadataNode))
    (element : MetadataNode) (callResult : JSValue) :
    Option (List MetadataNode) :=
  let baseName := element.baseNodeName.getD ""
  if baseName = "sitePreferences" then spAllPreferences
  else if (callResult.get "data").truthy = true
      ∧ (callResult.get "data").isArray = true then
    some ((((callResult.get "data").arrElems).filter (fun o =>
      if baseName = "systemObjectDefinitions" then
        !((o.get "object_type").strictEq (.str "CustomObject"))
      else
        (o.get "object_type").strictEq (.str "CustomObject")
          && (o.get "display_name").truthy)).map (fun filterdObj =>
      { name :=
          if baseName = "systemObjectDefinitions" then
            filterdObj.get "object_type"
          else if baseName = "customObjectDefinitions" then
            (filterdObj.get "display_name").get "default"
          else .str ""
        collapsibleState := .Collapsed
        parentId := "root." ++ baseName
        objectTypeDefinition := some (ObjectTypeDefinition.ofRaw filterdObj)
        displayDescription := .str " " }))
  else none

/-- C4: expanding an attribute-groups parent container maps the OCAPI
response to children as follows — a successful response with `count === 0`
and no `data` field yields exactly the single non-expandable informational
node "No attribute groups defined", while an error response or one lacking a
`data` array (outside that empty-success case) yields exactly the single
non-expandable node "Unable to load..."; neither case returns an empty list,
and the mapping is a total function of the response (no fault). -/
theorem c4_group_container_fallbacks (element : MetadataNode) (callResult : JSValue)
    (hname : element.name = .str "Attribute Groups") :
    (((callResult.get "error").truthy = false
        ∧ callResult.get "count" = .num 0
        ∧ callResult.get "data" = .undef) →
      getAttributeOrGroupContainerChildren element callResult
        = [{ name := .str "No attribute groups defined"
             collapsibleState := .None
             parentId := element.parentId ++ "."
               ++ (((jsSplit element.parentId '.').getLast?).getD "") }])
    ∧ ((((callResult.get "error").truthy = true
          ∨ (callResult.get "data").isArray = false)
        ∧ ¬ ((callResult.get "error").truthy = false
            ∧ (callResult.get "count").typeof ≠ "undefined"
            ∧ (callResult.get "count").strictEq (.num 0) = true)) →
      getAttributeOrGroupContainerChildren element callResult
        = [{ name := .str "Unable to load..."
             collapsibleState := .None
             parentId := element.parentId ++ "."
               ++ (((jsSplit element.parentId '.').getLast?).getD "") }]) := by
  have hdisp : getAttributeOrGroupContainerChildren element callResult
      = groupContainerChildren element
          (((jsSplit element.parentId '.').getLast?).getD "") callResult := by
    simp [getAttributeOrGroupContainerChildren, hname, JSValue.strictEq]
  rw [hdisp]
  constructor
  · rintro ⟨he, hc, hd⟩
    unfold groupContainerChildren
    rw [if_neg (by rintro ⟨-, hty, -⟩; rw [hd] at hty; exact hty rfl)]
    rw [if_pos ⟨he, by rw [hc]; exact ⟨by decide, by decide⟩⟩]
  · rintro ⟨hor, hnot⟩
    unfold groupContainerChildren
    rw [if_neg (by
      rintro ⟨he, -, hd⟩
      rcases hor with he' | hd'
      · rw [he] at he'; cases he'
      · rw [hd] at hd'; cases hd')]
    rw [if_neg hnot]

/-- The attribute-groups container node of the `Product` system object, as
expanded in C4's witness. -/
def c4Element : MetadataNode :=
  { name := .str "Attribute Groups"
    collapsibleState := .Collapsed
    parentId := "root.systemObjectDefinitions.Product"
    parentContainer := some "objectAttributeGroups" }

/-- Witness for C4: a `{count: 0}` success yields the single informational
leaf, a `{error: true}` response yields the single failure leaf. -/
theorem c4_group_container_fallbacks_witness :
    getAttributeOrGroupContainerChildren c4Element (.obj [("count", .num 0)])
      = [{ name := .str "No attribute groups defined", collapsibleState := .None,
           parentId := c4Element.parentId ++ "."
             ++ (((jsSplit c4Element.parentId '.').getLast?).getD "") }]
    ∧ getAttributeOrGroupContainerChildren c4Element (.obj [("error", .bool true)])
      = [{ name := .str "Unable to load...", collapsibleState := .None,
           parentId := c4Element.parentId ++ "."
             ++ (((jsSplit c4Element.parentId '.').getLast?).getD "") }]
    ∧ c4Element.parentId ++ "."
        ++ (((jsSplit c4Element.parentId '.').getLast?).getD "")
      = "root.systemObjectDefinitions.Product.Product" := by
  refine ⟨?_, ?_, rfl⟩
  · exact (c4_group_container_fallbacks c4Element (.obj [("count", .num 0)]) rfl).1
      ⟨rfl, rfl, rfl⟩
  · exact (c4_group_container_fallbacks c4Element (.obj [("error", .bool true)]) rfl).2
      ⟨Or.inl rfl, by decide⟩

/-- An object-type node under the custom-object-definitions lineage, with
pre-fetched counts, used to refute and witness C5. -/
def c5CustomElement : MetadataNode :=
  { name := .str "My Custom Object"
    collapsibleState := .Collapsed
    parentId := "root.customObjectDefinitions"
    objectTypeDefinition := some
      { objectType := "MyCO", attributeDefinitionCount := 5, attributeGroupCount := 3 } }

/-- C5, counterexample: for an object type under the custom-object lineage
the code makes *both* container children non-expandable — in particular the
"Attribute Definitions" node does not remain expandable, contrary to the
claim. -/
theorem c5_custom_attribute_definitions_not_expandable :
    (getObjectDefinitionChildren c5CustomElement).map
        (fun n => (n.name, n.collapsibleState))
      = [(.str "Attribute Definitions", .None), (.str "Attribute Groups", .None)]
    ∧ ((getObjectDefinitionChildren c5CustomElement).head?.map MetadataNode.expandable)
      = some false := ⟨rfl, rfl⟩

/-- C5, amended: expanding an object-type node yields exactly the two parent
containers "Attribute Definitions" then "Attribute Groups", annotated with
the pre-fetched counts; for lineages mentioning `customObjectDefinitions`
*both* nodes are non-expandable, otherwise both are collapsed/expandable. -/
theorem c5_object_definition_children_amended (element : MetadataNode)
    (otd : ObjectTypeDefinition) (h : element.objectTypeDefinition = some otd) :
    (getObjectDefinitionChildren element).map (fun n => n.name)
      = [.str "Attribute Definitions", .str "Attribute Groups"]
    ∧ (getObjectDefinitionChildren element).map (fun n => n.displayDescription)
      = [.str (toString otd.attributeDefinitionCount),
         .str (toString otd.attributeGroupCount)]
    ∧ (getObjectDefinitionChildren element).map (fun n => n.parentContainer)
      = [some "objectAttributeDefinitions", some "objectAttributeGroups"]
    ∧ (getObjectDefinitionChildren element).map (fun n => n.collapsibleState)
      = (if jsContains element.parentId "customObjectDefinitions" = true then
          [TreeItemCollapsibleState.None, TreeItemCollapsibleState.None]
        else [TreeItemCollapsibleState.Collapsed, TreeItemCollapsibleState.Collapsed])
    ∧ (getObjectDefinitionChildren element).map (fun n => n.parentId)
      = [element.parentId ++ "." ++ otd.objectType,
         element.parentId ++ "." ++ otd.objectType] := by
  refine ⟨?_, ?_, ?_, ?_, ?_⟩
  · simp [getObjectDefinitionChildren, h]
  · simp [getObjectDefinitionChildren, h]
  · simp [getObjectDefinitionChildren, h]
  · by_cases hc : jsContains element.parentId "customObjectDefinitions" = true
    · simp [getObjectDefinitionChildren, h, hc]
    · simp [getObjectDefinitionChildren, h, hc]
  · simp [getObjectDefinitionChildren, h]

/-- An object-type node under the system-object lineage for the C5
witness. -/
def c5SystemElement : MetadataNode :=
  { name := .str "Product"
    collapsibleState := .Collapsed
    parentId := "root.systemObjectDefinitions"
    objectTypeDefinition := some
      { objectType := "Product", attributeDefinitionCount := 12, attributeGroupCount := 4 } }

/-- Witness for C5 (amended) on a system object type: two containers in
order, counts rendered, both expandable. -/
theorem c5_object_definition_children_amended_witness :
    (getObjectDefinitionChildren c5SystemElement).map (fun n => n.name)
      = [.str "Attribute Definitions", .str "Attribute Groups"]
    ∧ (getObjectDefinitionChildren c5SystemElement).map (fun n => n.displayDescription)
      = [.str "12", .str "4"]
    ∧ (getObjectDefinitionChildren c5SystemElement).map (fun n => n.collapsibleState)
      = [.Collapsed, .Collapsed] := by
  have h := c5_object_definition_children_amended c5SystemElement
    { objectType := "Product", attributeDefinitionCount := 12, attributeGroupCount := 4 } rfl
  exact ⟨h.1, h.2.1, (h.2.2.2.1).trans (by rfl)⟩

/-- C10: when a non-site-preferences base category is expanded and the call
result's `data` field is missing or not an array, `getBaseNodeChildren`
resolves to `undefined` (`none`) — neither an informational fallback node nor
an empty list, unlike the parent-container strategy's error path. -/
theorem c10_base_node_children_undefined (sp : Option (List MetadataNode))
    (element : MetadataNode) (callResult : JSValue)
    (hbase : element.baseNodeName.getD "" ≠ "sitePreferences")
    (hdata : (callResult.get "data").isArray = false) :
    getBaseNodeChildren sp element callResult = none := by
  simp [getBaseNodeChildren, hbase, hdata]

/-- The System Object Definitions base-category node for the C10 witness. -/
def c10Element : MetadataNode :=
  { name := .str "System Object Definitions"
    collapsibleState := .Collapsed
    parentId := "root"
    baseNodeName := some "systemObjectDefinitions" }

/-- Witness for C10: a faulted `getAll` response (no `data` array) makes the
base-category expansion resolve to `undefined`. -/
theorem c10_base_node_children_undefined_witness :
    getBaseNodeChildren none c10Element (.obj [("error", .bool true), ("fault", .obj [])])
      = none := by
  exact c10_base_node_children_undefined none c10Element _ (by decide) rfl

/-! ## Export serialization (`src/xmlHandler/XMLHandler.ts`) -/

/-- An in-memory XML element: tag name, attributes, optional text content,
child elements (in creation order, as `xmlbuilder`'s `.ele` appends). -/
inductive XMLNode where
  | mk : String → List (String × String) → Option String → List XMLNode → XMLNode

/-- Tag name of an element. -/
def xmlName : XMLNode → String
  | .mk n _ _ _ => n

/-- Attributes of an element. -/
def xmlAttrs : XMLNode → List (String × String)
  | .mk _ a _ _ => a

/-- Text content of an element. -/
def xmlText : XMLNode → Option String
  | .mk _ _ t _ => t

/-- Child elements of an element. -/
def xmlChildren : XMLNode → List XMLNode
  | .mk _ _ _ c => c

/-- All elements of a tree up to the given depth (fuel); the serializer's
documents are at most seven levels deep, so fuel 16 collects every
element. -/
def xmlDescendants : Nat → XMLNode → List XMLNode
  | 0, _ => []
  | n + 1, x => x :: ((xmlChildren x).map (xmlDescendants n)).flatten

/-- Whether the document contains an element with the given tag name. -/
def xmlHasElement (x : XMLNode) (name : String) : Bool :=
  (xmlDescendants 16 x).any (fun e => xmlName e = name)

/-- Whether the document contains an element with the given tag name
carrying the given attribute. -/
def xmlHasElementAttr (x : XMLNode) (name : String) (attr : String × String) : Bool :=
  (xmlDescendants 16 x).any (fun e =>
    xmlName e = name && (xmlAttrs e).contains attr)

/-- Whether the document contains an element with the given tag name and
text content. -/
def xmlHasElementText (x : XMLNode) (name : String) (text : String) : Bool :=
  (xmlDescendants 16 x).any (fun e =>
    xmlName e = name && xmlText e = some text)

/-- The schema namespace attached to every generated document root. -/
def XMLHandler.NAMESPACE_STRING : String :=
  "http://www.demandware.com/xml/impex/metadata/2006-10-31"

/-- The method `XMLHandler.getObjectAttributeXML` (lines 76–155): the `type-extension`
subtree built for an attribute definition.  Element order follows the
source's `.ele` call order; boolean and numeric text contents are
JavaScript-coerced.  `attribute.valueType.toLocaleLowerCase()` is string
lowercasing (the member is a string for every wire document).  The source
names this parameter `attribute`, which is a reserved word here. -/
def XMLHandler.getObjectAttributeXML (systemObjectType : String)
    (attrDoc : ObjectAttributeDefinition) : XMLNode :=
  let valType := jsToLower (jsStrOf (attrDoc.member "valueType"))
  let attrDefChildren :=
    [XMLNode.mk "display-name" [("xml:lang", "x-default")]
        (some ((attrDoc.member "displayName").get "default").toJSString) [],
     XMLNode.mk "description" [("xml:lang", "x-default")]
        (some ((attrDoc.member "description").get "default").toJSString) [],
     XMLNode.mk "type" [] (some (attrDoc.member "valueType").toJSString) [],
     XMLNode.mk "mandatory-flag" []
        (some (attrDoc.member "mandatory").toJSString) [],
     XMLNode.mk "externally-managed-flag" []
        (some (attrDoc.member "externallyManaged").toJSString) []]
    ++ (if valType = "string" then
          [XMLNode.mk "min-length" []
            (some (attrDoc.member "minLength").toJSString) []]
        else if jsContains valType "enum" = true
            ∧ (attrDoc.member "valueDefinitions").lengthTruthy = true then
          [XMLNode.mk "value-definitions" [] none
            (((attrDoc.member "valueDefinitions").arrElems).filterMap (fun valDef =>
              if (valDef.get "displayValue").truthy = true
                  ∧ (valDef.get "value").truthy = true then
                some (XMLNode.mk "value-definition" [] none
                  [XMLNode.mk "display" [("xml:lang", "x-default")]
                      (some ((valDef.get "displayValue").get "default").toJSString) [],
                   XMLNode.mk "value" []
                      (some (valDef.get "value").toJSString) []])
              else none))]
        else [])
    ++ (if systemObjectType = "Product" then
          [XMLNode.mk "localizable-flag" []
              (some (attrDoc.member "localizable").toJSString) [],
           XMLNode.mk "site-specific-flag" []
              (some (attrDoc.member "siteSpecific").toJSString) [],
           XMLNode.mk "visible-flag" []
              (some (attrDoc.member "visible").toJSString) [],
           XMLNode.mk "order-required-flag" []
              (some (attrDoc.member "orderRequired").toJSString) [],
           XMLNode.mk "externally-defined-flag" []
              (some (attrDoc.member "externallyDefined").toJSString) []]
          ++ (if (attrDoc.member "defaultValue").truthy then
                [XMLNode.mk "default-value" []
                  (some ((attrDoc.member "defaultValue").get "value").toJSString) []]
              else [])
        else if systemObjectType = "SitePreferences" then
          (if (attrDoc.member "defaultValue").truthy then
            [XMLNode.mk "default-value" []
              (some ((attrDoc.member "defaultValue").get "value").toJSString) []]
          else [])
        else [])
  XMLNode.mk "type-extension" [("type-id", systemObjectType)] none
    [XMLNode.mk "custom-attribute-definitions" [] none
      [XMLNode.mk "attribute-definition"
        [("attribute-id", (attrDoc.member "id").toJSString)] none attrDefChildren]]

/-- The method `XMLHandler.getObjectGroupXML` (lines 36–63): the `type-extension`
subtree for an attribute group; the group document model is spec-modelled
(the class keeps the wire object's `id`, localized display name, and member
attribute list). -/
def XMLHandler.getObjectGroupXML (systemObjectType : String)
    (objectAttributeGroup : ObjectAttributeGroup) : XMLNode :=
  XMLNode.mk "type-extension" [("type-id", systemObjectType)] none
    [XMLNode.mk "group-definitions" [] none
      [XMLNode.mk "attribute-group"
        [("group-id", (objectAttributeGroup.raw.get "id").toJSString)] none
        ([XMLNode.mk "display-name" [("xml:lang", "x-default")]
            (some (objectAttributeGroup.raw.get "display_name").toJSString) []]
         ++ (if (objectAttributeGroup.raw.get "attribute_definitions").lengthTruthy then
              ((objectAttributeGroup.raw.get "attribute_definitions").arrElems).map
                (fun attr =>
                  XMLNode.mk "attribute" [("attribute-id", (attr.get "id").toJSString)]
                    none [])
             else []))]]

/-- The method `XMLHandler.getXMLFromNode` (lines 170–195), up to the editor
presentation: derives the owning object type as the last dot-separated
segment of the node's lineage, creates the namespaced `metadata` root, and
attaches the subtree for the node's document model. -/
def XMLHandler.getXMLFromNode (metaNode : MetadataNode) : XMLNode :=
  let systemObjectType := lastDotSegment metaNode.parentId
  let children :=
    if metaNode.nodeType = "objectAttributeDefinition" then
      [XMLHandler.getObjectAttributeXML systemObjectType
        (metaNode.objectAttributeDefinition.getD [])]
    else if metaNode.nodeType = "objectAttributeGroup" then
      [XMLHandler.getObjectGroupXML systemObjectType
        (metaNode.objectAttributeGroup.getD ⟨.undef⟩)]
    else []
  XMLNode.mk "metadata" [("xmlns", XMLHandler.NAMESPACE_STRING)] none children

/-- The node exported in C8: an attribute definition `myAttr` of value type
`string`, mandatory, whose lineage ends in `Product`. -/
def c8Node : MetadataNode :=
  { name := .str "myAttr"
    collapsibleState := .Collapsed
    parentId := "root.systemObjectDefinitions.Product"
    objectAttributeDefinition := some (ObjectAttributeDefinition.ofArgs
      (.obj [("id", .str "myAttr"), ("value_type", .str "string"),
             ("mandatory", .bool true)])) }

/-- C8: exporting that node yields a document whose root `metadata` element
carries the schema namespace and which contains a
`type-extension[type-id=Product]` (the owning type being the last
dot-separated segment of the node's lineage), an
`attribute-definition[attribute-id=myAttr]`, `<type>string</type>`,
`<mandatory-flag>true</mandatory-flag>`, a `min-length` element and a
Product-specific `localizable-flag` element, but no `value-definitions`
block. -/
theorem c8_attribute_definition_export :
    xmlName (XMLHandler.getXMLFromNode c8Node) = "metadata"
    ∧ (xmlAttrs (XMLHandler.getXMLFromNode c8Node)).contains
        ("xmlns", "http://www.demandware.com/xml/impex/metadata/2006-10-31") = true
    ∧ xmlHasElementAttr (XMLHandler.getXMLFromNode c8Node)
        "type-extension" ("type-id", "Product") = true
    ∧ xmlHasElementAttr (XMLHandler.getXMLFromNode c8Node)
        "attribute-definition" ("attribute-id", "myAttr") = true
    ∧ xmlHasElementText (XMLHandler.getXMLFromNode c8Node) "type" "string" = true
    ∧ xmlHasElementText (XMLHandler.getXMLFromNode c8Node) "mandatory-flag" "true" = true
    ∧ xmlHasElement (XMLHandler.getXMLFromNode c8Node) "min-length" = true
    ∧ xmlHasElement (XMLHandler.getXMLFromNode c8Node) "localizable-flag" = true
    ∧ xmlHasElement (XMLHandler.getXMLFromNode c8Node) "value-definitions" = false
    ∧ lastDotSegment c8Node.parentId = "Product" := by
  exact ⟨rfl, rfl, rfl, rfl, rfl, rfl, rfl, rfl, rfl, rfl⟩
